import Mathlib

set_option maxRecDepth 8192

/-!
Verification of the x3dh-demo repository: a shallow embedding of its
X3DH key agreement core (internal/x3dh/crypto.go), the Alice initiator
flow (cmd/alice/main.go), the Bob responder flow (cmd/bob/main.go) and
the per-user mailbox of the broker (cmd/server/main.go), together with
theorems settling the specification claims.

Bytes are modelled as natural numbers (values kept below 256 by the
operations themselves or by explicit hypotheses); 32-bit words are
naturals reduced with an explicit mod 2 ^ 32.
-/

namespace X3DH

/-- Reduction of a natural number to a 32-bit word, the overflow behaviour
of Go uint32 arithmetic. -/
def w32 (x : Nat) : Nat := x % 4294967296

/-- Rotation of a 32-bit word right by n positions. -/
def rotr32 (n x : Nat) : Nat := w32 ((x >>> n) ||| (x <<< (32 - n)))

/-- Big-endian bytes of x, fixed width n (most significant byte first). -/
def toBEBytes : Nat → Nat → List Nat
  | 0, _ => []
  | n + 1, x => toBEBytes n (x / 256) ++ [x % 256]

/-- Little-endian bytes of x, fixed width n (least significant byte first). -/
def toLEBytes : Nat → Nat → List Nat
  | 0, _ => []
  | n + 1, x => x % 256 :: toLEBytes n (x / 256)

/-- Natural number denoted by a little-endian byte list. -/
def fromLEBytes : List Nat → Nat
  | [] => 0
  | b :: rest => b + 256 * fromLEBytes rest

/-- Big-endian 32-bit words assembled from a byte list, four bytes each. -/
def bytesToWordsBE : List Nat → List Nat
  | a :: b :: c :: d :: rest => (((a * 256 + b) * 256 + c) * 256 + d) :: bytesToWordsBE rest
  | _ => []

/-- Big-endian byte serialization of one 32-bit word. -/
def wordToBytesBE (w : Nat) : List Nat :=
  [w / 16777216 % 256, w / 65536 % 256, w / 256 % 256, w % 256]

/-! SHA-256, the hash behind x3dh.KDF (Go crypto/sha256, FIPS 180-4). -/

/-- Round constants of SHA-256. -/
def sha256K : List Nat :=
  [1116352408, 1899447441, 3049323471, 3921009573, 961987163, 1508970993,
   2453635748, 2870763221, 3624381080, 310598401, 607225278, 1426881987,
   1925078388, 2162078206, 2614888103, 3248222580, 3835390401, 4022224774,
   264347078, 604807628, 770255983, 1249150122, 1555081692, 1996064986,
   2554220882, 2821834349, 2952996808, 3210313671, 3336571891, 3584528711,
   113926993, 338241895, 666307205, 773529912, 1294757372, 1396182291,
   1695183700, 1986661051, 2177026350, 2456956037, 2730485921, 2820302411,
   3259730800, 3345764771, 3516065817, 3600352804, 4094571909, 275423344,
   430227734, 506948616, 659060556, 883997877, 958139571, 1322822218,
   1537002063, 1747873779, 1955562222, 2024104815, 2227730452, 2361852424,
   2428436474, 2756734187, 3204031479, 3329325298]

/-- Initial hash state of SHA-256. -/
def sha256Init : List Nat :=
  [1779033703, 3144134277, 1013904242, 2773480762, 1359893119, 2600822924,
   528734635, 1541459225]

/-- Small sigma 0 of the SHA-256 message schedule. -/
def ssig0 (x : Nat) : Nat := rotr32 7 x ^^^ rotr32 18 x ^^^ (x >>> 3)

/-- Small sigma 1 of the SHA-256 message schedule. -/
def ssig1 (x : Nat) : Nat := rotr32 17 x ^^^ rotr32 19 x ^^^ (x >>> 10)

/-- Big sigma 0 of the SHA-256 compression function. -/
def bsig0 (x : Nat) : Nat := rotr32 2 x ^^^ rotr32 13 x ^^^ rotr32 22 x

/-- Big sigma 1 of the SHA-256 compression function. -/
def bsig1 (x : Nat) : Nat := rotr32 6 x ^^^ rotr32 11 x ^^^ rotr32 25 x

/-- Message-schedule extension, keeping the schedule reversed (most recent
word first) so that W[t-2], W[t-7], W[t-15], W[t-16] are positions
1, 6, 14, 15. -/
def sha256ExtendRev : Nat → List Nat → List Nat
  | 0, rw => rw
  | n + 1, rw =>
      sha256ExtendRev n
        (w32 (ssig1 (rw.getD 1 0) + rw.getD 6 0 + ssig0 (rw.getD 14 0) + rw.getD 15 0) :: rw)

/-- Full 64-word message schedule of one 64-byte block. -/
def sha256Schedule (block : List Nat) : List Nat :=
  (sha256ExtendRev 48 (bytesToWordsBE block).reverse).reverse

/-- State of the SHA-256 compression loop: the eight working variables. -/
abbrev Sha256State := Nat × Nat × Nat × Nat × Nat × Nat × Nat × Nat

/-- One round of the SHA-256 compression function, consuming the pair of a
round constant and a schedule word. -/
def sha256Round (s : Sha256State) (kw : Nat × Nat) : Sha256State :=
  match s, kw with
  | (a, b, c, d, e, f, g, h), (k, w) =>
      let ch := (e &&& f) ^^^ ((e ^^^ 4294967295) &&& g)
      let maj := (a &&& b) ^^^ (a &&& c) ^^^ (b &&& c)
      let t1 := w32 (h + bsig1 e + ch + k + w)
      let t2 := w32 (bsig0 a + maj)
      (w32 (t1 + t2), a, b, c, w32 (d + t1), e, f, g)

/-- Compression of one 64-byte block into the running eight-word state. -/
def sha256Compress (h8 : List Nat) (block : List Nat) : List Nat :=
  let ws := sha256Schedule block
  let s0 : Sha256State :=
    (h8.getD 0 0, h8.getD 1 0, h8.getD 2 0, h8.getD 3 0,
     h8.getD 4 0, h8.getD 5 0, h8.getD 6 0, h8.getD 7 0)
  let t := (List.zip sha256K ws).foldl sha256Round s0
  [w32 (h8.getD 0 0 + t.1), w32 (h8.getD 1 0 + t.2.1), w32 (h8.getD 2 0 + t.2.2.1),
   w32 (h8.getD 3 0 + t.2.2.2.1), w32 (h8.getD 4 0 + t.2.2.2.2.1),
   w32 (h8.getD 5 0 + t.2.2.2.2.2.1), w32 (h8.getD 6 0 + t.2.2.2.2.2.2.1),
   w32 (h8.getD 7 0 + t.2.2.2.2.2.2.2)]

/-- Iteration of the compression function over successive 64-byte blocks;
the first argument is fuel bounding the number of blocks. -/
def sha256Blocks : Nat → List Nat → List Nat → List Nat
  | 0, h8, _ => h8
  | fuel + 1, h8, msg =>
      if msg = [] then h8
      else sha256Blocks fuel (sha256Compress h8 (msg.take 64)) (msg.drop 64)

/-- Merkle-Damgard padding of SHA-256: a 0x80 byte, zeros to 56 mod 64, and
the bit length as eight big-endian bytes. -/
def sha256Pad (msg : List Nat) : List Nat :=
  msg ++ 128 :: List.replicate ((64 + 55 - msg.length % 64) % 64) 0 ++ toBEBytes 8 (8 * msg.length)

/-- SHA-256 digest (32 bytes) of a byte list. -/
def sha256 (msg : List Nat) : List Nat :=
  let padded := sha256Pad msg
  ((sha256Blocks padded.length sha256Init padded).map wordToBytesBE).flatten

/-- Embedding of x3dh.KDF (internal/x3dh/crypto.go): a SHA-256 digest over
the variadic 32-byte parts written to the hash in order. -/
def KDF (parts : List (List Nat)) : List Nat := sha256 parts.flatten

/-! Hex encoding and decoding (Go encoding/hex), strings as char lists. -/

/-- Value of one hex digit character; Go hex accepts 0-9, a-f and A-F. -/
def hexDigitVal (c : Char) : Option Nat :=
  if 48 ≤ c.toNat ∧ c.toNat ≤ 57 then some (c.toNat - 48)
  else if 97 ≤ c.toNat ∧ c.toNat ≤ 102 then some (c.toNat - 87)
  else if 65 ≤ c.toNat ∧ c.toNat ≤ 70 then some (c.toNat - 55)
  else none

/-- Lowercase hex digit character of a value below 16, as Go hex emits. -/
def hexDigitChar (n : Nat) : Char :=
  if n < 10 then Char.ofNat (48 + n) else Char.ofNat (87 + n)

/-- Embedding of Go hex.DecodeString: two digits per byte; an odd length or
an invalid digit is an error, modelled as none. -/
def hexDecode : List Char → Option (List Nat)
  | [] => some []
  | hi :: lo :: rest =>
      match hexDigitVal hi, hexDigitVal lo, hexDecode rest with
      | some h, some l, some bs => some ((16 * h + l) :: bs)
      | _, _, _ => none
  | _ => none

/-- Embedding of Go hex.EncodeToString: two lowercase digits per byte. -/
def hexEncode : List Nat → List Char
  | [] => []
  | b :: rest => hexDigitChar (b / 16) :: hexDigitChar (b % 16) :: hexEncode rest

/-- Embedding of x3dh.encode32 (internal/x3dh/crypto.go): hex string of a
32-byte value. -/
def encode32 (pk : List Nat) : List Char := hexEncode pk

/-- Embedding of x3dh.decode32 (internal/x3dh/crypto.go): decodes hex and
rejects, with an explicit error, any result that is not exactly 32 bytes. -/
def decode32 (s : List Char) : Except String (List Nat) :=
  match hexDecode s with
  | none => Except.error "failed to decode hex string"
  | some raw =>
      if raw.length = 32 then Except.ok raw
      else Except.error ("expected 32 bytes, got " ++ toString raw.length)

/-- Embedding of the client-side decode32 of cmd/alice/main.go and
cmd/bob/main.go: it panics on invalid hex (modelled as an error value) but
performs no length check at all — the Go copy into a [32]byte zero-pads a
short decode and truncates a long one. -/
def cmdDecode32 (s : List Char) : Except String (List Nat) :=
  match hexDecode s with
  | none => Except.error "panic: invalid hex"
  | some raw => Except.ok (raw.take 32 ++ List.replicate (32 - raw.length) 0)

/-! The X25519 group and x3dh.DH. Go crypto/ecdh X25519 is an external
library; it is modelled algebraically: the points are the cyclic group of
prime order p, written as ZMod p with the scalar action as multiplication,
the base point is a fixed nonzero element, and the check Go performs (its
ECDH returns an error when the shared secret is all zero, which is exactly
when the peer key is the identity or another low-order point) is modelled
as rejecting the zero group element. -/

/-- Embedding of x3dh.DH (internal/x3dh/crypto.go): errors when the private
key is nil, errors when the computed shared point is the zero point (the
all-zero output check of Go crypto/ecdh), otherwise returns the shared
point. -/
def DH (p : Nat) (priv : Option (ZMod p)) (pub : ZMod p) : Except String (ZMod p) :=
  match priv with
  | none => Except.error "private key is nil"
  | some a =>
      if a * pub = 0 then Except.error "failed to compute DH shared secret: low order point"
      else Except.ok (a * pub)

/-- Embedding of x3dh.GenKeyPair (internal/x3dh/crypto.go): the randomness
is supplied as the scalar argument; the result is the private key (present,
never nil) and the public point, the scalar times the base point g. Go
clamping guarantees the scalar is nonzero modulo the group order, which
theorems state as a hypothesis. -/
def GenKeyPair (p : Nat) (g : ZMod p) (a : ZMod p) : Option (ZMod p) × ZMod p :=
  (some a, a * g)

/-- Byte serialization of a group element, the 32-byte little-endian
encoding of its representative, as the X25519 shared secret bytes fed from
x3dh.DH into x3dh.KDF. -/
def pointBytes (p : Nat) (x : ZMod p) : List Nat := toLEBytes 32 x.val

/-- Embedding of the initiator secret derivation of cmd/alice/main.go,
steps 5 and 6: DH1 = DH(IKa, SPKb), DH2 = DH(EKa, IKb), DH3 = DH(EKa, SPKb),
DH4 = DH(EKa, OTKb), then KDF over the four shared secrets in that order;
any DH error aborts. -/
def aliceDerive (p : Nat) (ikaPriv ekaPriv : Option (ZMod p))
    (ikbPub spkbPub otkbPub : ZMod p) : Except String (List Nat) := do
  let dh1 ← DH p ikaPriv spkbPub
  let dh2 ← DH p ekaPriv ikbPub
  let dh3 ← DH p ekaPriv spkbPub
  let dh4 ← DH p ekaPriv otkbPub
  return KDF [pointBytes p dh1, pointBytes p dh2, pointBytes p dh3, pointBytes p dh4]

/-- Embedding of the responder secret derivation of cmd/bob/main.go,
checkMessages step 4: DH1 = DH(SPKb, IKa), DH2 = DH(IKb, EKa),
DH3 = DH(SPKb, EKa), DH4 = DH(OTKb, EKa) over the public keys carried in
the envelope, then KDF in the same order; any DH error aborts. -/
def bobDerive (p : Nat) (ikbPriv spkbPriv otkbPriv : Option (ZMod p))
    (ikaPub ekaPub : ZMod p) : Except String (List Nat) := do
  let dh1 ← DH p spkbPriv ikaPub
  let dh2 ← DH p ikbPriv ekaPub
  let dh3 ← DH p spkbPriv ekaPub
  let dh4 ← DH p otkbPriv ekaPub
  return KDF [pointBytes p dh1, pointBytes p dh2, pointBytes p dh3, pointBytes p dh4]

/-! ChaCha20-Poly1305 (golang.org/x/crypto/chacha20poly1305, RFC 8439),
the AEAD both clients apply to the first message: key 32 bytes, nonce 12
bytes, ciphertext carrying a 16-byte Poly1305 tag at its end. -/

/-- Rotation of a 32-bit word left by n positions. -/
def rotl32 (n x : Nat) : Nat := w32 ((x <<< n) ||| (x >>> (32 - n)))

/-- Little-endian 32-bit words assembled from a byte list, four bytes each. -/
def bytesToWordsLE : List Nat → List Nat
  | a :: b :: c :: d :: rest =>
      (a + 256 * b + 65536 * c + 16777216 * d) :: bytesToWordsLE rest
  | _ => []

/-- ChaCha20 quarter round on state positions a, b, c, d. -/
def qround (st : List Nat) (a b c d : Nat) : List Nat :=
  let va := st.getD a 0
  let vb := st.getD b 0
  let vc := st.getD c 0
  let vd := st.getD d 0
  let va := w32 (va + vb)
  let vd := rotl32 16 (vd ^^^ va)
  let vc := w32 (vc + vd)
  let vb := rotl32 12 (vb ^^^ vc)
  let va := w32 (va + vb)
  let vd := rotl32 8 (vd ^^^ va)
  let vc := w32 (vc + vd)
  let vb := rotl32 7 (vb ^^^ vc)
  (((st.set a va).set b vb).set c vc).set d vd

/-- One ChaCha20 double round: four column rounds then four diagonal
rounds. -/
def chachaDoubleRound (st : List Nat) : List Nat :=
  let st := qround st 0 4 8 12
  let st := qround st 1 5 9 13
  let st := qround st 2 6 10 14
  let st := qround st 3 7 11 15
  let st := qround st 0 5 10 15
  let st := qround st 1 6 11 12
  let st := qround st 2 7 8 13
  let st := qround st 3 4 9 14
  st

/-- Iterated double rounds; ChaCha20 runs ten of them. -/
def chachaRounds : Nat → List Nat → List Nat
  | 0, st => st
  | n + 1, st => chachaRounds n (chachaDoubleRound st)

/-- One 64-byte ChaCha20 block for the given key, nonce and counter. -/
def chachaBlock (key nonce : List Nat) (counter : Nat) : List Nat :=
  let st0 := [1634760805, 857760878, 2036477234, 1797285236]
      ++ bytesToWordsLE key ++ [w32 counter] ++ bytesToWordsLE nonce
  let st := chachaRounds 10 st0
  ((List.zipWith (fun x y => w32 (x + y)) st st0).map (toLEBytes 4)).flatten

/-- Consecutive ChaCha20 blocks, the first argument counting blocks. -/
def keystreamBlocks : Nat → List Nat → List Nat → Nat → List Nat
  | 0, _, _, _ => []
  | n + 1, key, nonce, counter =>
      chachaBlock key nonce counter ++ keystreamBlocks n key nonce (counter + 1)

/-- ChaCha20 keystream of n bytes, block counter starting at 1 as in the
RFC 8439 AEAD construction. -/
def keystream (key nonce : List Nat) (n : Nat) : List Nat :=
  (keystreamBlocks ((n + 63) / 64) key nonce 1).take n

/-- Clamping of the Poly1305 r value. -/
def polyClamp (r : Nat) : Nat := r &&& 0x0ffffffc0ffffffc0ffffffc0fffffff

/-- Accumulation loop of Poly1305 over 16-byte chunks, with fuel bounding
the number of steps by the message length. -/
def poly1305Aux : Nat → Nat → Nat → List Nat → Nat
  | _, acc, _, [] => acc
  | 0, acc, _, _ => acc
  | fuel + 1, acc, r, msg =>
      let chunk := msg.take 16
      let n := fromLEBytes chunk + 2 ^ (8 * chunk.length)
      poly1305Aux fuel ((acc + n) * r % 1361129467683753853853498429727072845819) r (msg.drop 16)

/-- Poly1305 MAC: 16-byte tag of a message under a 32-byte one-time key. -/
def poly1305 (key msg : List Nat) : List Nat :=
  let r := polyClamp (fromLEBytes (key.take 16))
  let s := fromLEBytes (key.drop 16)
  toLEBytes 16 ((poly1305Aux msg.length 0 r msg + s) % 2 ^ 128)

/-- Input the RFC 8439 AEAD authenticates, with the empty associated data
both clients pass: the ciphertext, zero padding to 16 bytes, and the two
64-bit little-endian lengths of associated data (zero) and ciphertext. -/
def polyInput (ct : List Nat) : List Nat :=
  ct ++ List.replicate ((16 - ct.length % 16) % 16) 0 ++ toLEBytes 8 0 ++ toLEBytes 8 ct.length

/-- Tag of the RFC 8439 AEAD: Poly1305 over polyInput under the one-time
key drawn from the first 32 bytes of ChaCha20 block zero. -/
def aeadTag (key nonce ct : List Nat) : List Nat :=
  poly1305 ((chachaBlock key nonce 0).take 32) (polyInput ct)

/-- Embedding of aead.Seal of golang.org/x/crypto/chacha20poly1305 as both
clients call it (nil destination, nil additional data): the plaintext XOR
the ChaCha20 keystream from counter 1, followed by the 16-byte tag. -/
def Seal (key nonce pt : List Nat) : List Nat :=
  let ct := List.zipWith (fun a b => a ^^^ b) pt (keystream key nonce pt.length)
  ct ++ aeadTag key nonce ct

/-- Embedding of aead.Open of golang.org/x/crypto/chacha20poly1305 as Bob
calls it: reject a ciphertext shorter than the 16-byte overhead, recompute
the tag over the body and compare with the carried tag, decrypt only on a
match; a mismatch yields an authentication error and no plaintext. -/
def Open (key nonce c : List Nat) : Option (List Nat) :=
  if c.length < 16 then none
  else
    let body := c.take (c.length - 16)
    let tag := c.drop (c.length - 16)
    if aeadTag key nonce body = tag then
      some (List.zipWith (fun a b => a ^^^ b) body (keystream key nonce body.length))
    else none

/-! The per-user mailbox of cmd/server/main.go: bundles live in a slot per
user and messages in a Redis list per user, appended with RPUSH by the
send handler and atomically removed from the head with LPOP by the get
handler. The store is modelled as the function from user id to queue. -/

/-- Embedding of x3dh.InitialMessage (internal/x3dh/types.go), the envelope
the server queues. -/
structure InitialMessage where
  aliceIK : String
  aliceEKa : String
  nonce : String
  ciphertext : String
  sender : String
deriving DecidableEq

/-- Per-user message queues of the server, user id to queue, head first. -/
def MailboxStore : Type := String → List InitialMessage

/-- Embedding of sendMessageHandler (cmd/server/main.go): RPUSH of the
envelope onto the tail of the queue of the addressed user. -/
def sendMessage (s : MailboxStore) (user : String) (m : InitialMessage) : MailboxStore :=
  fun u => if u = user then s u ++ [m] else s u

/-- Embedding of getMessageHandler (cmd/server/main.go): LPOP of the head
of the queue of the user, returned together with the remaining count
(LLEN after the pop); an empty queue is reported as none (HTTP 404, no
messages), not as an error. -/
def getMessage (s : MailboxStore) (user : String) :
    Option (InitialMessage × Nat) × MailboxStore :=
  match s user with
  | [] => (none, s)
  | m :: rest => (some (m, rest.length), fun u => if u = user then rest else s u)

/-! The initiator session of cmd/alice/main.go from its step 3 on. The
signature check calls ed25519.Verify of the external crypto/ed25519
library; its Boolean outcome is passed in as an argument, everything after
it is the embedded control flow of main. The trace lists the protocol
steps the session actually performs. -/

/-- Protocol steps the initiator session can perform after the signature
check: a Diffie-Hellman computation, the key derivation, the AEAD seal,
the send of the envelope. -/
inductive Step where
  | dh : Step
  | kdf : Step
  | seal : Step
  | send : Step
deriving DecidableEq

/-- Embedding of the initiator flow of cmd/alice/main.go, steps 3 to 8:
verify the bundle signature (outcome passed in as verify), abort the whole
session on failure; otherwise compute DH1..DH4 aborting on any DH error,
derive the session key with KDF, seal the plaintext and send. The second
component records every step performed. -/
def aliceSession (p : Nat) (verify : Bool) (ikaPriv ekaPriv : Option (ZMod p))
    (ikbPub spkbPub otkbPub : ZMod p) (pt nonceBytes : List Nat) :
    Except String (List Nat) × List Step :=
  if verify = false then (Except.error "SPK signature verification failed!", [])
  else
    match DH p ikaPriv spkbPub with
    | Except.error e => (Except.error e, [Step.dh])
    | Except.ok dh1 =>
      match DH p ekaPriv ikbPub with
      | Except.error e => (Except.error e, [Step.dh, Step.dh])
      | Except.ok dh2 =>
        match DH p ekaPriv spkbPub with
        | Except.error e => (Except.error e, [Step.dh, Step.dh, Step.dh])
        | Except.ok dh3 =>
          match DH p ekaPriv otkbPub with
          | Except.error e => (Except.error e, [Step.dh, Step.dh, Step.dh, Step.dh])
          | Except.ok dh4 =>
            let master := KDF [pointBytes p dh1, pointBytes p dh2,
                               pointBytes p dh3, pointBytes p dh4]
            (Except.ok (Seal master nonceBytes pt),
             [Step.dh, Step.dh, Step.dh, Step.dh, Step.kdf, Step.seal, Step.send])

/-! Theorems about the Diffie-Hellman layer. -/

/-- DH on a present private key and a public point with nonzero shared
point returns the shared point. -/
theorem DH_ok (p : Nat) (a pub : ZMod p) (h : a * pub ≠ 0) :
    DH p (some a) pub = Except.ok (a * pub) := by
  simp [DH, h]

/-- Claim C2: for all generated X25519 key pairs, DH of one private key
with the public key of the other succeeds, and the two shared secrets are
equal. -/
theorem dh_commutative (p : Nat) [Fact (Nat.Prime p)] (g a b : ZMod p)
    (hg : g ≠ 0) (ha : a ≠ 0) (hb : b ≠ 0) :
    ∃ s, DH p (GenKeyPair p g a).1 (GenKeyPair p g b).2 = Except.ok s ∧
         DH p (GenKeyPair p g b).1 (GenKeyPair p g a).2 = Except.ok s := by
  refine ⟨a * (b * g), ?_, ?_⟩
  · exact DH_ok p a (b * g) (mul_ne_zero ha (mul_ne_zero hb hg))
  · rw [GenKeyPair, GenKeyPair, DH_ok p b (a * g) (mul_ne_zero hb (mul_ne_zero ha hg))]
    rw [mul_left_comm]

/-- Witness for claim C2 at p = 5, g = 2, a = 1, b = 3. -/
theorem dh_commutative_witness :
    ∃ s, DH 5 (GenKeyPair 5 2 1).1 (GenKeyPair 5 2 3).2 = Except.ok s ∧
         DH 5 (GenKeyPair 5 2 3).1 (GenKeyPair 5 2 1).2 = Except.ok s := by
  have hg : (2 : ZMod 5) ≠ 0 := by decide
  have ha : (1 : ZMod 5) ≠ 0 := by decide
  have hb : (3 : ZMod 5) ≠ 0 := by decide
  haveI : Fact (Nat.Prime 5) := ⟨by norm_num⟩
  exact dh_commutative 5 2 1 3 hg ha hb

/-- Claim C9: DH returns an explicit error when the private key is absent,
and an explicit error when the peer public key is the identity point (the
all-zero shared secret check of Go crypto/ecdh); in neither case does it
return a shared secret. -/
theorem dh_error_cases (p : Nat) (pub a : ZMod p) :
    DH p none pub = Except.error "private key is nil" ∧
    DH p (some a) 0 = Except.error "failed to compute DH shared secret: low order point" := by
  constructor
  · rfl
  · simp [DH]

/-- Claim C1: the initiator secret derived from the responder bundle and a
fresh ephemeral key equals the responder secret derived from its own
private keys and the public keys carried in the envelope. -/
theorem x3dh_end_to_end (p : Nat) [Fact (Nat.Prime p)] (g ika eka ikb spkb otkb : ZMod p)
    (hg : g ≠ 0) (hika : ika ≠ 0) (heka : eka ≠ 0)
    (hikb : ikb ≠ 0) (hspkb : spkb ≠ 0) (hotkb : otkb ≠ 0) :
    ∃ K, aliceDerive p (some ika) (some eka) (ikb * g) (spkb * g) (otkb * g) = Except.ok K ∧
         bobDerive p (some ikb) (some spkb) (some otkb) (ika * g) (eka * g) = Except.ok K := by
  refine ⟨KDF [pointBytes p (ika * (spkb * g)), pointBytes p (eka * (ikb * g)),
               pointBytes p (eka * (spkb * g)), pointBytes p (eka * (otkb * g))], ?_, ?_⟩
  · rw [aliceDerive,
      DH_ok p ika (spkb * g) (mul_ne_zero hika (mul_ne_zero hspkb hg)),
      DH_ok p eka (ikb * g) (mul_ne_zero heka (mul_ne_zero hikb hg)),
      DH_ok p eka (spkb * g) (mul_ne_zero heka (mul_ne_zero hspkb hg)),
      DH_ok p eka (otkb * g) (mul_ne_zero heka (mul_ne_zero hotkb hg))]
    rfl
  · have e1 : spkb * (ika * g) = ika * (spkb * g) := by ring
    have e2 : ikb * (eka * g) = eka * (ikb * g) := by ring
    have e3 : spkb * (eka * g) = eka * (spkb * g) := by ring
    have e4 : otkb * (eka * g) = eka * (otkb * g) := by ring
    rw [bobDerive,
      DH_ok p spkb (ika * g) (mul_ne_zero hspkb (mul_ne_zero hika hg)),
      DH_ok p ikb (eka * g) (mul_ne_zero hikb (mul_ne_zero heka hg)),
      DH_ok p spkb (eka * g) (mul_ne_zero hspkb (mul_ne_zero heka hg)),
      DH_ok p otkb (eka * g) (mul_ne_zero hotkb (mul_ne_zero heka hg)),
      e1, e2, e3, e4]
    rfl

/-- Witness for claim C1 at p = 5, g = 2 and concrete nonzero scalars. -/
theorem x3dh_end_to_end_witness :
    ∃ K, aliceDerive 5 (some 1) (some 2) (3 * 2) (4 * 2) (1 * 2) = Except.ok K ∧
         bobDerive 5 (some 3) (some 4) (some 1) (1 * 2) (2 * 2) = Except.ok K := by
  have h1 : (1 : ZMod 5) ≠ 0 := by decide
  have h2 : (2 : ZMod 5) ≠ 0 := by decide
  have h3 : (3 : ZMod 5) ≠ 0 := by decide
  have h4 : (4 : ZMod 5) ≠ 0 := by decide
  haveI : Fact (Nat.Prime 5) := ⟨by norm_num⟩
  exact x3dh_end_to_end 5 2 1 2 3 4 1 h2 h1 h2 h3 h4 h1

/-! Theorems about the key derivation function. -/

/-- Length of a fixed-width little-endian byte serialization. -/
theorem toLEBytes_length : ∀ (n x : Nat), (toLEBytes n x).length = n
  | 0, _ => rfl
  | n + 1, x => by simp [toLEBytes, toLEBytes_length n]

/-- Length of the flattened big-endian serialization of a word list. -/
theorem flatten_map_wordToBytesBE_length :
    ∀ l : List Nat, ((l.map wordToBytesBE).flatten).length = 4 * l.length
  | [] => rfl
  | w :: rest => by
      simp [wordToBytesBE, flatten_map_wordToBytesBE_length rest]
      omega

/-- Length of the SHA-256 compression output. -/
theorem sha256Compress_length (h8 block : List Nat) : (sha256Compress h8 block).length = 8 := rfl

/-- Length preservation of the block iteration. -/
theorem sha256Blocks_length :
    ∀ (fuel : Nat) (h8 msg : List Nat), h8.length = 8 → (sha256Blocks fuel h8 msg).length = 8
  | 0, _, _, h => h
  | fuel + 1, h8, msg, h => by
      rw [sha256Blocks]
      by_cases hm : msg = []
      · simp [hm, h]
      · simp [hm]
        exact sha256Blocks_length fuel _ _ (sha256Compress_length h8 (msg.take 64))

/-- SHA-256 digests are 32 bytes. -/
theorem sha256_length (msg : List Nat) : (sha256 msg).length = 32 := by
  rw [sha256, flatten_map_wordToBytesBE_length,
    sha256Blocks_length (sha256Pad msg).length sha256Init (sha256Pad msg) rfl]

/-- Claim C3: KDF returns a 32-byte key and is a deterministic function of
its ordered inputs; on the concrete 32-byte test inputs of the repository
(1..32 and 33..64), swapping the order of the two inputs changes the
output, and so does changing a single byte of the first input. -/
theorem kdf_deterministic_order_sensitive :
    (∀ parts : List (List Nat), (KDF parts).length = 32 ∧ KDF parts = KDF parts)
    ∧ KDF [(List.range 32).map (fun i => i + 1), (List.range 32).map (fun i => i + 33)] ≠
        KDF [(List.range 32).map (fun i => i + 33), (List.range 32).map (fun i => i + 1)]
    ∧ KDF [(List.range 32).map (fun i => i + 1), (List.range 32).map (fun i => i + 33)] ≠
        KDF [2 :: (List.range 31).map (fun i => i + 2), (List.range 32).map (fun i => i + 33)] := by
  refine ⟨fun parts => ⟨sha256_length parts.flatten, rfl⟩, ?_, ?_⟩
  · decide
  · decide

/-! Theorems about hex serialization. -/

/-- Decoding a hex digit character recovers the encoded value. -/
theorem hexDigitVal_hexDigitChar : ∀ n < 16, hexDigitVal (hexDigitChar n) = some n := by decide

/-- Length of a hex encoding: two characters per byte. -/
theorem hexEncode_length : ∀ l : List Nat, (hexEncode l).length = 2 * l.length
  | [] => rfl
  | b :: rest => by simp [hexEncode, hexEncode_length rest]; omega

/-- Hex decoding inverts hex encoding on byte lists. -/
theorem hexDecode_hexEncode : ∀ l : List Nat, (∀ b ∈ l, b < 256) → hexDecode (hexEncode l) = some l
  | [], _ => rfl
  | b :: rest, h => by
      have hb : b < 256 := h b (List.mem_cons_self b rest)
      have hhi : b / 16 < 16 := Nat.div_lt_of_lt_mul hb
      have hlo : b % 16 < 16 := Nat.mod_lt b (by omega)
      rw [hexEncode, hexDecode, hexDigitVal_hexDigitChar _ hhi, hexDigitVal_hexDigitChar _ hlo,
        hexDecode_hexEncode rest (fun x hx => h x (List.mem_cons_of_mem b hx))]
      simp [Nat.div_add_mod]

/-- Claim C10: for a 32-byte value, encode32 yields a 64-character hex
string and decode32 of that string succeeds and returns the value. -/
theorem encode32_decode32_roundtrip (bs : List Nat) (hlen : bs.length = 32)
    (hrange : ∀ b ∈ bs, b < 256) :
    (encode32 bs).length = 64 ∧ decode32 (encode32 bs) = Except.ok bs := by
  constructor
  · rw [encode32, hexEncode_length, hlen]
  · rw [decode32, encode32, hexDecode_hexEncode bs hrange]
    simp [hlen]

/-- Witness for claim C10 at the all-zero 32-byte value. -/
theorem encode32_decode32_roundtrip_witness :
    (encode32 (List.replicate 32 0)).length = 64 ∧
    decode32 (encode32 (List.replicate 32 0)) = Except.ok (List.replicate 32 0) :=
  encode32_decode32_roundtrip (List.replicate 32 0) (by decide) (by decide)

/-- Claim C8, failing input: the client-side decode32 of cmd/alice and
cmd/bob, applied to the valid hex string 0102 whose decoding is only two
bytes, does not reject it: it silently zero-pads to 32 bytes and returns
success, while the library decode32 of internal/x3dh rejects the same
input with an explicit length error. -/
theorem cmdDecode32_accepts_wrong_length :
    cmdDecode32 (String.toList "0102") = Except.ok (1 :: 2 :: List.replicate 30 0) ∧
    decode32 (String.toList "0102") = Except.error "expected 32 bytes, got 2" := by
  constructor
  · rfl
  · rfl

/-! Theorems about the mailbox and the initiator session. -/

/-- Claim C6: the per-user queue is FIFO with at-most-once delivery:
starting from an empty queue for user U, enqueuing E1, E2, E3 and then
dequeuing three times returns exactly E1, E2, E3 in that order, each
removed as it is returned (the successor stores are threaded through), and
a fourth dequeue reports the queue empty rather than an error. -/
theorem mailbox_fifo (s0 : MailboxStore) (U : String) (E1 E2 E3 : InitialMessage)
    (hempty : s0 U = []) :
    (getMessage (sendMessage (sendMessage (sendMessage s0 U E1) U E2) U E3) U).1 =
        some (E1, 2) ∧
    (getMessage (getMessage (sendMessage (sendMessage (sendMessage s0 U E1) U E2) U E3) U).2
        U).1 = some (E2, 1) ∧
    (getMessage (getMessage (getMessage (sendMessage (sendMessage (sendMessage s0 U E1) U E2)
        U E3) U).2 U).2 U).1 = some (E3, 0) ∧
    (getMessage (getMessage (getMessage (getMessage (sendMessage (sendMessage (sendMessage s0
        U E1) U E2) U E3) U).2 U).2 U).2 U).1 = none := by
  refine ⟨?_, ?_, ?_, ?_⟩
  all_goals simp [sendMessage, getMessage, hempty]

/-- Witness for claim C6 at the empty store, user bob and three concrete
envelopes differing in their nonce and sender fields. -/
theorem mailbox_fifo_witness :
    (getMessage (sendMessage (sendMessage (sendMessage (fun _ => []) "bob"
        ⟨"ik", "ek", "n1", "c1", "alice"⟩) "bob" ⟨"ik", "ek", "n2", "c2", "carol"⟩) "bob"
        ⟨"ik", "ek", "n3", "c3", "dave"⟩) "bob").1 = some (⟨"ik", "ek", "n1", "c1", "alice"⟩, 2) ∧
    (getMessage (getMessage (sendMessage (sendMessage (sendMessage (fun _ => []) "bob"
        ⟨"ik", "ek", "n1", "c1", "alice"⟩) "bob" ⟨"ik", "ek", "n2", "c2", "carol"⟩) "bob"
        ⟨"ik", "ek", "n3", "c3", "dave"⟩) "bob").2 "bob").1 =
      some (⟨"ik", "ek", "n2", "c2", "carol"⟩, 1) ∧
    (getMessage (getMessage (getMessage (sendMessage (sendMessage (sendMessage (fun _ => [])
        "bob" ⟨"ik", "ek", "n1", "c1", "alice"⟩) "bob" ⟨"ik", "ek", "n2", "c2", "carol"⟩) "bob"
        ⟨"ik", "ek", "n3", "c3", "dave"⟩) "bob").2 "bob").2 "bob").1 =
      some (⟨"ik", "ek", "n3", "c3", "dave"⟩, 0) ∧
    (getMessage (getMessage (getMessage (getMessage (sendMessage (sendMessage (sendMessage
        (fun _ => []) "bob" ⟨"ik", "ek", "n1", "c1", "alice"⟩) "bob"
        ⟨"ik", "ek", "n2", "c2", "carol"⟩) "bob" ⟨"ik", "ek", "n3", "c3", "dave"⟩) "bob").2
        "bob").2 "bob").2 "bob").1 = none :=
  mailbox_fifo (fun _ => []) "bob" ⟨"ik", "ek", "n1", "c1", "alice"⟩
    ⟨"ik", "ek", "n2", "c2", "carol"⟩ ⟨"ik", "ek", "n3", "c3", "dave"⟩ rfl

/-- Claim C7: when the signature over the signed prekey does not verify,
the initiator session aborts with the signature-verification error and its
trace is empty: no Diffie-Hellman computation, no key derivation, no
encryption and no send is performed. -/
theorem alice_aborts_on_bad_signature (p : Nat) (ikaPriv ekaPriv : Option (ZMod p))
    (ikbPub spkbPub otkbPub : ZMod p) (pt nonceBytes : List Nat) :
    aliceSession p false ikaPriv ekaPriv ikbPub spkbPub otkbPub pt nonceBytes =
      (Except.error "SPK signature verification failed!", []) := rfl

/-! Theorems about the AEAD. -/

/-- Length of the little-endian word list assembled from a byte list. -/
theorem bytesToWordsLE_length : ∀ l : List Nat, (bytesToWordsLE l).length = l.length / 4
  | [] => rfl
  | [_] => by simp [bytesToWordsLE]
  | [_, _] => by simp [bytesToWordsLE]
  | [_, _, _] => by simp [bytesToWordsLE]
  | a :: b :: c :: d :: rest => by
      rw [bytesToWordsLE]
      simp [bytesToWordsLE_length rest]
      omega

/-- Length of a flattened map whose outputs all have length k. -/
theorem flatten_map_length {f : Nat → List Nat} {k : Nat} (hf : ∀ x, (f x).length = k) :
    ∀ l : List Nat, ((l.map f).flatten).length = k * l.length
  | [] => by simp
  | w :: rest => by
      simp [hf w, flatten_map_length hf rest]
      ring

/-- Length preservation of the quarter round. -/
theorem qround_length (st : List Nat) (a b c d : Nat) :
    (qround st a b c d).length = st.length := by
  simp [qround]

/-- Length preservation of the double round. -/
theorem chachaDoubleRound_length (st : List Nat) :
    (chachaDoubleRound st).length = st.length := by
  simp [chachaDoubleRound, qround_length]

/-- Length preservation of the round iteration. -/
theorem chachaRounds_length : ∀ (n : Nat) (st : List Nat),
    (chachaRounds n st).length = st.length
  | 0, _ => rfl
  | n + 1, st => by
      rw [chachaRounds, chachaRounds_length n, chachaDoubleRound_length]

/-- ChaCha20 blocks are 64 bytes for a 32-byte key and a 12-byte nonce. -/
theorem chachaBlock_length (key nonce : List Nat) (c : Nat)
    (hk : key.length = 32) (hn : nonce.length = 12) :
    (chachaBlock key nonce c).length = 64 := by
  rw [chachaBlock, flatten_map_length (toLEBytes_length 4), List.length_zipWith,
    chachaRounds_length]
  simp [bytesToWordsLE_length, hk, hn]

/-- Length of a run of consecutive blocks. -/
theorem keystreamBlocks_length : ∀ (cnt : Nat) (key nonce : List Nat) (c : Nat),
    key.length = 32 → nonce.length = 12 →
    (keystreamBlocks cnt key nonce c).length = 64 * cnt
  | 0, _, _, _, _, _ => rfl
  | cnt + 1, key, nonce, c, hk, hn => by
      rw [keystreamBlocks]
      simp [chachaBlock_length key nonce c hk hn,
        keystreamBlocks_length cnt key nonce (c + 1) hk hn]
      ring

/-- The keystream has exactly the requested length. -/
theorem keystream_length (key nonce : List Nat) (n : Nat)
    (hk : key.length = 32) (hn : nonce.length = 12) :
    (keystream key nonce n).length = n := by
  rw [keystream, List.length_take, keystreamBlocks_length _ _ _ _ hk hn]
  have h1 := Nat.div_add_mod (n + 63) 64
  have h2 : (n + 63) % 64 < 64 := Nat.mod_lt _ (by omega)
  omega

/-- XOR with the same keystream twice restores the plaintext. -/
theorem zipWith_xor_cancel : ∀ (pt ks : List Nat), pt.length ≤ ks.length →
    List.zipWith (fun a b => a ^^^ b) (List.zipWith (fun a b => a ^^^ b) pt ks) ks = pt
  | [], _, _ => by simp
  | _ :: _, [], h => by simp at h
  | a :: pt, b :: ks, h => by
      simp only [List.zipWith]
      rw [Nat.xor_cancel_right, zipWith_xor_cancel pt ks (by simpa using h)]

/-- AEAD tags are 16 bytes. -/
theorem aeadTag_length (key nonce ct : List Nat) : (aeadTag key nonce ct).length = 16 := by
  rw [aeadTag, poly1305]
  exact toLEBytes_length 16 _

/-- Claim C4: the AEAD round trip: for every 32-byte key, every 12-byte
nonce and every non-empty plaintext, opening the sealed message succeeds
and returns the original plaintext. -/
theorem aead_roundtrip (key nonce pt : List Nat) (hkey : key.length = 32)
    (hnonce : nonce.length = 12) (_hpt : pt ≠ []) :
    Open key nonce (Seal key nonce pt) = some pt := by
  have hks : (keystream key nonce pt.length).length = pt.length :=
    keystream_length key nonce pt.length hkey hnonce
  have hct : (List.zipWith (fun a b => a ^^^ b) pt (keystream key nonce pt.length)).length
      = pt.length := by
    rw [List.length_zipWith, hks]
    omega
  simp only [Seal, Open]
  set B := List.zipWith (fun a b => a ^^^ b) pt (keystream key nonce pt.length) with hB
  set T := aeadTag key nonce B with hT
  have hTlen : T.length = 16 := aeadTag_length key nonce B
  have hlen : (B ++ T).length = pt.length + 16 := by
    rw [List.length_append, hct, hTlen]
  rw [if_neg (by omega)]
  have hsub : (B ++ T).length - 16 = B.length := by
    omega
  rw [hsub, List.take_left, List.drop_left, if_pos rfl, hct]
  rw [zipWith_xor_cancel pt (keystream key nonce pt.length) (by omega)]

/-- Witness for claim C4 at the all-zero key and nonce and a two-byte
plaintext. -/
theorem aead_roundtrip_witness :
    Open (List.replicate 32 0) (List.replicate 12 0)
      (Seal (List.replicate 32 0) (List.replicate 12 0) [104, 105]) = some [104, 105] :=
  aead_roundtrip (List.replicate 32 0) (List.replicate 12 0) [104, 105]
    (by decide) (by decide) (by decide)

/-- Claim C5: the AEAD fails closed. First part: for every key, nonce and
ciphertext whose carried tag does not match the tag recomputed over its
body (any tampering of the ciphertext or nonce, or a wrong key, except a
Poly1305 collision), Open returns an authentication failure and no
plaintext at all. Second part: flipping any single byte of the tag of a
sealed message always makes Open fail. -/
theorem aead_open_fails_closed :
    (∀ key nonce c : List Nat,
        aeadTag key nonce (c.take (c.length - 16)) ≠ c.drop (c.length - 16) →
        Open key nonce c = none) ∧
    (∀ (key nonce pt : List Nat) (i d : Nat),
        key.length = 32 → nonce.length = 12 → i < 16 → d ≠ 0 →
        Open key nonce ((Seal key nonce pt).set (pt.length + i)
          ((Seal key nonce pt).getD (pt.length + i) 0 ^^^ d)) = none) := by
  constructor
  · intro key nonce c hne
    simp only [Open]
    by_cases hlt : c.length < 16
    · rw [if_pos hlt]
    · rw [if_neg hlt, if_neg hne]
  · intro key nonce pt i d hk hn hi hd
    have hks : (keystream key nonce pt.length).length = pt.length :=
      keystream_length key nonce pt.length hk hn
    have hct : (List.zipWith (fun a b => a ^^^ b) pt (keystream key nonce pt.length)).length
        = pt.length := by
      rw [List.length_zipWith, hks]
      omega
    simp only [Seal, Open]
    set B := List.zipWith (fun a b => a ^^^ b) pt (keystream key nonce pt.length) with hB
    set T := aeadTag key nonce B with hT
    have hTlen : T.length = 16 := aeadTag_length key nonce B
    have hidx : pt.length + i - B.length = i := by omega
    have hset : (B ++ T).set (pt.length + i) ((B ++ T).getD (pt.length + i) 0 ^^^ d)
        = B ++ T.set i (T.getD i 0 ^^^ d) := by
      rw [List.getD_append_right B T 0 (pt.length + i) (by omega)]
      rw [List.set_append_right]
      · rw [hidx]
      · omega
    rw [hset]
    set T2 := T.set i (T.getD i 0 ^^^ d) with hT2
    have hT2len : T2.length = 16 := by
      rw [hT2, List.length_set, hTlen]
    have hlen : (B ++ T2).length = pt.length + 16 := by
      rw [List.length_append, hct, hT2len]
    rw [if_neg (by omega)]
    have hsub : (B ++ T2).length - 16 = B.length := by
      omega
    rw [hsub, List.take_left, List.drop_left]
    have hgd : T2.getD i 0 = T.getD i 0 ^^^ d := by
      rw [hT2, List.getD_eq_getElem _ _ (by rw [List.length_set, hTlen]; omega),
        List.getElem_set_self (by rw [List.length_set, hTlen]; omega)]
    have hneq : T ≠ T2 := by
      intro h
      have h1 : T.getD i 0 = T2.getD i 0 := by rw [h]
      rw [hgd] at h1
      have h2 := congrArg (fun x => T.getD i 0 ^^^ x) h1
      simp only [← Nat.xor_assoc, Nat.xor_self, Nat.zero_xor] at h2
      exact hd h2.symm
    rw [if_neg hneq]

/-- Witness for claim C5: a garbage 20-byte ciphertext with a mismatched
tag is rejected, and flipping the first tag byte of a sealed two-byte
message is rejected, both at the all-zero key and nonce. -/
theorem aead_open_fails_closed_witness :
    Open (List.replicate 32 0) (List.replicate 12 0) (List.replicate 20 0) = none ∧
    Open (List.replicate 32 0) (List.replicate 12 0)
      ((Seal (List.replicate 32 0) (List.replicate 12 0) [104, 105]).set 2
        ((Seal (List.replicate 32 0) (List.replicate 12 0) [104, 105]).getD 2 0 ^^^ 1)) =
      none := by
  constructor
  · exact aead_open_fails_closed.1 (List.replicate 32 0) (List.replicate 12 0)
      (List.replicate 20 0) (by decide)
  · exact aead_open_fails_closed.2 (List.replicate 32 0) (List.replicate 12 0) [104, 105] 0 1
      (by decide) (by decide) (by decide) (by decide)

end X3DH
